import Mathlib

/-!
A shallow embedding of the request-processing pipeline of the
rest-api-school-database service (source: `src/models/user.js`, which holds
the Sequelize `User` model followed by the Express `apiRouter` routes file).

The embedding models:
- JSON request-body values (`JsValue`), with `Option JsValue` standing for a
  field that may be absent (JavaScript `undefined`);
- the express-validator chains `userValidationChain` and
  `courseValidationChain` (each chain item is a field rule carrying an
  optional guard, from `.if(...)`, and an ordered list of validators, each
  with its `.withMessage` text; all validators run, there is no `.bail()`);
- the `authenticateUser` middleware (basic-auth credentials, first identity
  whose `emailAddress` equals the credential name, bcrypt comparison);
- the `asyncHandler` error-isolation wrapper;
- the route handlers as a pure step function `handleFull` over an explicit
  store (users, courses) plus the module-level `user` / `course` globals the
  routes file assigns to (the assignments on the `POST /users` and
  `POST /courses` success paths create write-only module globals because the
  routes file lacks a strict-mode directive).

External collaborators are modelled at their contract level, as the spec
scopes them: bcryptjs by an injective hash with `compareSync s h` true
exactly when `h` is the hash of `s`, and validator.js `isEmail` by a
simplified email-syntax check (only `isEmail "" = false` and concrete
evaluations matter to the theorems below).
-/

namespace SchoolApi

/-- A JSON value as it can occur in a parsed request body field. -/
inductive JsValue where
  | str : String → JsValue
  | num : Int → JsValue
  | boolean : Bool → JsValue
  | null : JsValue
deriving DecidableEq, Repr

/-- JavaScript truthiness of a defined value. -/
def truthy : JsValue → Bool
  | .str s => s ≠ ""
  | .num n => n ≠ 0
  | .boolean b => b
  | .null => false

/-- express-validator's `toString` coercion applied before the validator.js
string validators: `undefined` and `null` become the empty string. -/
def jsToString : Option JsValue → String
  | none => ""
  | some .null => ""
  | some (.str s) => s
  | some (.num n) => toString n
  | some (.boolean b) => if b then "true" else "false"

/-- `exists(\x7bcheckNull: true, checkFalsy: true\x7d)`: the field must be
present and truthy. -/
def existsFalsy (v : Option JsValue) : Bool :=
  match v with
  | some x => truthy x
  | none => false

/-- `exists()` with default options, as used inside `.if(body(f).exists())`:
the value must merely not be `undefined` (a `null` value passes). -/
def existsDefault (v : Option JsValue) : Bool :=
  v.isSome

/-- validator.js `isAlpha` (default en-US locale) on the coerced string:
non-empty and all ASCII letters. -/
def isAlphaStr (s : String) : Bool :=
  s ≠ "" && s.toList.all Char.isAlpha

/-- The `isAlpha()` validator. -/
def isAlphaV (v : Option JsValue) : Bool :=
  isAlphaStr (jsToString v)

/-- Split a character list at the first occurrence of `sep`. -/
def splitFirst (sep : Char) : List Char → Option (List Char × List Char)
  | [] => none
  | c :: rest =>
      if c = sep then some ([], rest)
      else (splitFirst sep rest).map (fun q => (c :: q.1, q.2))

/-- Modelled from the spec: validator.js `isEmail` internals are out of
scope ("email present and valid-email syntax"); a simplified check with one
`@` separating a non-empty local part from a non-empty domain containing a
dot. Only its value on concrete witness inputs, in particular
`isEmailStr "" = false`, is used by the theorems. -/
def isEmailStr (s : String) : Bool :=
  match splitFirst '@' s.toList with
  | some (lp, dp) =>
      !lp.isEmpty && !dp.isEmpty && !dp.contains '@' && dp.contains '.'
  | none => false

/-- The `isEmail()` validator. -/
def isEmailV (v : Option JsValue) : Bool :=
  isEmailStr (jsToString v)

/-- The express-validator `isString()` validator: a raw `typeof` check on
the uncoerced value. -/
def isStringV (v : Option JsValue) : Bool :=
  match v with
  | some (.str _) => true
  | _ => false

/-- Digits-only check with no leading zero, i.e. validator.js
`isInt(\x7ballow_leading_zeroes: false\x7d)` after stripping an optional
sign: the string is "0" or starts with a non-zero digit. -/
def isIntDigits (l : List Char) : Bool :=
  match l with
  | [] => false
  | c :: rest =>
      c.isDigit && (c ≠ '0' || rest = []) && rest.all Char.isDigit

/-- validator.js `isInt(\x7ballow_leading_zeroes: false\x7d)` on the coerced
string: optional sign, then digits with no leading zero. -/
def isIntStr (s : String) : Bool :=
  match s.toList with
  | '+' :: rest => isIntDigits rest
  | '-' :: rest => isIntDigits rest
  | l => isIntDigits l

/-- The `isInt(\x7ballow_leading_zeroes: false\x7d)` validator. -/
def isIntV (v : Option JsValue) : Bool :=
  isIntStr (jsToString v)

/-! ### Validation chains -/

/-- One express-validator chain item: the field it reads (as a getter on the
payload type `P`), an optional `.if(...)` guard, and the ordered list of
validators each paired with its `.withMessage` text. No chain in the source
uses `.bail()`, so every validator of an unguarded (or guard-passing) chain
runs and each failing validator contributes its message. -/
structure Rule (P : Type) where
  getter : P → Option JsValue
  guard : Option (Option JsValue → Bool)
  steps : List ((Option JsValue → Bool) × String)

/-- Evaluate one chain item on a payload: if the guard (when present) fails
the whole item is skipped, otherwise every validator runs in order and each
failing one contributes exactly its message. -/
def runRule {P : Type} (p : P) (r : Rule P) : List String :=
  let v := r.getter p
  let go : List String :=
    r.steps.filterMap (fun step => if step.1 v then none else some step.2)
  match r.guard with
  | some g => if g v then go else []
  | none => go

/-- Evaluate a whole chain: every item is evaluated (no short-circuiting)
and the messages are concatenated in chain-declaration order. -/
def runChain {P : Type} (rules : List (Rule P)) (p : P) : List String :=
  rules.flatMap (fun r => runRule p r)

/-- The body of a `POST /users` request: each field is `none` when the key
is absent (JavaScript `undefined`). -/
structure UserPayload where
  firstName : Option JsValue
  lastName : Option JsValue
  emailAddress : Option JsValue
  password : Option JsValue
deriving DecidableEq, Repr

/-- The body of a `POST /courses` or `PUT /courses/:id` request. -/
structure CoursePayload where
  title : Option JsValue
  description : Option JsValue
  estimatedTime : Option JsValue
  materialsNeeded : Option JsValue
  userId : Option JsValue
deriving DecidableEq, Repr

def msgFirstNameRequired : String :=
  "You must provide a first name for the user using the key firstName"
def msgFirstNameAlpha : String :=
  "firstName must be a string, with only alpha characters"
def msgLastNameRequired : String :=
  "You must provide a last name for the user using the key lastName"
def msgLastNameAlpha : String :=
  "lastName must be a string, with only alpha characters"
def msgEmailRequired : String :=
  "You must provide an email address for the user using the key emailAddress"
def msgEmailValid : String :=
  "You must provide a valid email address"
def msgPasswordRequired : String :=
  "You must provide a password for the user using the key password"

def msgTitleRequired : String :=
  "You must provide a title for the course with the key title"
def msgTitleString : String :=
  "The title must be a string"
def msgDescriptionRequired : String :=
  "You must provide a description for the course with the key description"
def msgDescriptionString : String :=
  "The description must be a string (it is a text field)"
def msgEstimatedTimeString : String :=
  "If you provide information for estimatedTime, it should be in string format"
def msgMaterialsNeededString : String :=
  "If you provide information about the materialsNeeded, it should be in string format"
def msgUserIdRequired : String :=
  "You must provide the id of the user this course belongs to"
def msgUserIdValid : String :=
  "You must provide a valid userId"

/-- `check('firstName').exists(...).withMessage(...).isAlpha().withMessage(...)`. -/
def firstNameRule : Rule UserPayload :=
  ⟨(fun p => p.firstName), none,
    [(existsFalsy, msgFirstNameRequired), (isAlphaV, msgFirstNameAlpha)]⟩

/-- `check('lastName')` chain item. -/
def lastNameRule : Rule UserPayload :=
  ⟨(fun p => p.lastName), none,
    [(existsFalsy, msgLastNameRequired), (isAlphaV, msgLastNameAlpha)]⟩

/-- `check('emailAddress')` chain item. -/
def emailAddressRule : Rule UserPayload :=
  ⟨(fun p => p.emailAddress), none,
    [(existsFalsy, msgEmailRequired), (isEmailV, msgEmailValid)]⟩

/-- `check('password')` chain item (presence only). -/
def passwordRule : Rule UserPayload :=
  ⟨(fun p => p.password), none,
    [(existsFalsy, msgPasswordRequired)]⟩

/-- The declared rule list for identity creation. -/
def userValidationChain : List (Rule UserPayload) :=
  [firstNameRule, lastNameRule, emailAddressRule, passwordRule]

/-- `check('title')` chain item. -/
def titleRule : Rule CoursePayload :=
  ⟨(fun p => p.title), none,
    [(existsFalsy, msgTitleRequired), (isStringV, msgTitleString)]⟩

/-- `check('description')` chain item. -/
def descriptionRule : Rule CoursePayload :=
  ⟨(fun p => p.description), none,
    [(existsFalsy, msgDescriptionRequired), (isStringV, msgDescriptionString)]⟩

/-- `body('estimatedTime').if(body('estimatedTime').exists()).isString()`. -/
def estimatedTimeRule : Rule CoursePayload :=
  ⟨(fun p => p.estimatedTime), some existsDefault,
    [(isStringV, msgEstimatedTimeString)]⟩

/-- `body('materialsNeeded').if(body('materialsNeeded').exists()).isString()`. -/
def materialsNeededRule : Rule CoursePayload :=
  ⟨(fun p => p.materialsNeeded), some existsDefault,
    [(isStringV, msgMaterialsNeededString)]⟩

/-- `check('userId')` chain item. -/
def userIdRule : Rule CoursePayload :=
  ⟨(fun p => p.userId), none,
    [(existsFalsy, msgUserIdRequired), (isIntV, msgUserIdValid)]⟩

/-- The declared rule list for resource creation and update. -/
def courseValidationChain : List (Rule CoursePayload) :=
  [titleRule, descriptionRule, estimatedTimeRule, materialsNeededRule, userIdRule]

/-! ### Data model and store -/

/-- A persisted `User` row (Sequelize model: id, firstName, lastName,
emailAddress, password — the password column holds the bcrypt hash). -/
structure User where
  id : Int
  firstName : String
  lastName : String
  emailAddress : String
  password : String
deriving DecidableEq, Repr

/-- The projection returned by `GET /users`
(`attributes: ['id', 'firstName', 'lastName', 'emailAddress']`). -/
structure UserProjection where
  id : Int
  firstName : String
  lastName : String
  emailAddress : String
deriving DecidableEq, Repr

/-- A persisted `Course` row. `estimatedTime` / `materialsNeeded` are
`Option` because the columns are nullable and `Course.create` receives the
raw (possibly absent) body values. -/
structure Course where
  id : Int
  title : JsValue
  description : JsValue
  estimatedTime : Option JsValue
  materialsNeeded : Option JsValue
  userId : JsValue
deriving DecidableEq, Repr

/-- The persistence collaborator's state: both tables plus the
auto-increment counters for the surrogate ids. -/
structure Store where
  users : List User
  courses : List Course
  nextUserId : Int
  nextCourseId : Int
deriving DecidableEq, Repr

/-- Modelled from the spec: bcryptjs internals are out of scope
("password-hash algorithm internals (only the verify/hash contract is
specified)"); the hash is an injective tagging of the secret. -/
def hashSync (s : String) : String :=
  "bcrypt$" ++ s

/-- Modelled from the spec: `bcryptjs.compareSync secret storedHash`
succeeds exactly when the stored hash is the hash of the offered secret. -/
def compareSync (secret storedHash : String) : Bool :=
  storedHash = hashSync secret

/-- A parsed basic-auth credential pair, as returned by the `basic-auth`
package; a missing or malformed Authorization header parses to `none`. -/
structure Creds where
  name : String
  pass : String
deriving DecidableEq, Repr

/-! ### Responses -/

/-- The JSON bodies the routes file produces. -/
inductive Body where
  | msg : String → Body
  | errors : List String → Body
  | userList : List UserProjection → Body
  | courseItem : Course → Body
  | courseList : List Course → Body
  | errObj : String → String → String → Body
deriving DecidableEq, Repr

/-- An HTTP response: status code and JSON body. -/
structure Response where
  status : Nat
  body : Body
deriving DecidableEq, Repr

def msgUnauthorized : String :=
  "Unauthorized: No credentials provided in the WWW-authenticate header."
def msgForbiddenNoUser : String :=
  "Forbidden: No user matches the credential provided."
def msgForbiddenPassword : String :=
  "Forbidden: The password did not match the user credential."
def msgWelcome : String :=
  "Welcome to the API"
def msgUserCreated : String :=
  "Successfully created new user."
def msgCourseCreated : String :=
  "Successfully created course"
def msgNoCourseWithId : String :=
  "There are no courses with that id."
def msgCourseUpdated : String :=
  "Thank you. The record was successfully updated."
def msgCourseDeleted : String :=
  "The record was deleted."
def msgDeleteNoCourse : String :=
  "That course id does not exist."
def msgInternalError : String :=
  "Sorry, there was an error"

/-! ### Authentication gate -/

/-- The `authenticateUser` middleware: parse credentials (already done by
`basic-auth`, hence the `Option Creds` input); with no credentials respond
401; otherwise find the first stored user whose `emailAddress` equals the
credential name (403 when none matches), compare the offered password
against the stored bcrypt hash (403 on mismatch), and on success hand the
matched user to the wrapped handler (`req.currentUser` / `next()`). -/
def authenticateUser (credentials : Option Creds) (users : List User) :
    Except Response User :=
  match credentials with
  | some c =>
      match users.find? (fun u => u.emailAddress = c.name) with
      | some matchedUser =>
          if compareSync c.pass matchedUser.password then
            .ok matchedUser
          else
            .error ⟨403, .msg msgForbiddenPassword⟩
      | none => .error ⟨403, .msg msgForbiddenNoUser⟩
  | none => .error ⟨401, .msg msgUnauthorized⟩

/-! ### Error-isolation wrapper -/

/-- A JavaScript `Error`: its `name` and `message`. -/
structure JsError where
  name : String
  message : String
deriving DecidableEq, Repr

/-- The `asyncHandler` wrapper: run the handler; a normal response passes
through untouched, a thrown error is caught (never re-raised) and turned
into a 500 response carrying a generic message, the error's name and its
description. -/
def asyncHandler (cb : Except JsError Response) : Response :=
  match cb with
  | .ok r => r
  | .error e => ⟨500, .errObj msgInternalError e.name e.message⟩

/-! ### CRUD orchestration -/

/-- The module-level bindings the routes file leaks: `user = await
User.create(...)` and `course = await Course.create(...)` assign to
undeclared identifiers (the routes file has no strict-mode directive), so
they become process globals that outlive the request. They are written on
the two creation success paths and never read. -/
structure Globals where
  user : Option User
  course : Option Course
deriving DecidableEq, Repr

/-- An inbound request to one of the eight routes, with its credentials
(where the route is authenticated) and parsed body (where it has one). -/
inductive Request where
  | root
  | getUsers (creds : Option Creds)
  | postUsers (p : UserPayload)
  | getCourses
  | getCourse (id : Int)
  | postCourses (creds : Option Creds) (p : CoursePayload)
  | putCourse (creds : Option Creds) (id : Int) (p : CoursePayload)
  | deleteCourse (creds : Option Creds) (id : Int)
deriving DecidableEq, Repr

/-- The outcome of processing one request. -/
structure StepResult where
  resp : Response
  store : Store
  globals : Globals
deriving DecidableEq, Repr

/-- `Course.findByPk`: first (unique) course with the given id. -/
def findByPk (courses : List Course) (id : Int) : Option Course :=
  courses.find? (fun c => c.id = id)

/-- The `GET /users` attribute projection. -/
def projectUser (u : User) : UserProjection :=
  ⟨u.id, u.firstName, u.lastName, u.emailAddress⟩

/-- The row built by `User.create` in `POST /users`: string columns receive
the (coerced) body values and the password column the bcrypt hash of the
supplied secret. -/
def createUserRecord (s : Store) (p : UserPayload) : User :=
  ⟨s.nextUserId, jsToString p.firstName, jsToString p.lastName,
    jsToString p.emailAddress, hashSync (jsToString p.password)⟩

/-- The row built by `Course.create` in `POST /courses`: the raw body
values (an absent optional field becomes a NULL column). -/
def createCourseRecord (s : Store) (p : CoursePayload) : Course :=
  ⟨s.nextCourseId, p.title.getD .null, p.description.getD .null,
    p.estimatedTime, p.materialsNeeded, p.userId.getD .null⟩

/-- `course.update(\x7btitle, description, estimatedTime, materialsNeeded,
userId\x7d)` in `PUT /courses/:id`: Sequelize ignores keys whose value is
`undefined`, so an absent body field keeps the stored value and a present
one (including an explicit null) replaces it. -/
def applyCourseUpdate (c : Course) (p : CoursePayload) : Course :=
  { c with
    title := p.title.getD c.title
    description := p.description.getD c.description
    estimatedTime :=
      match p.estimatedTime with
      | some v => some v
      | none => c.estimatedTime
    materialsNeeded :=
      match p.materialsNeeded with
      | some v => some v
      | none => c.materialsNeeded
    userId := p.userId.getD c.userId }

/-- One request processed end to end, mirroring the middleware order of the
routes file: authentication first (where required), then the validation
chain (which only records violations), then the handler body. The handlers
delegate persistence to the store; the persistence collaborator is modelled
as total, so the per-handler `try/catch` 500 paths (persistence failures)
do not arise. -/
def handleFull (req : Request) (s : Store) (g : Globals) : StepResult :=
  match req with
  | .root => ⟨⟨200, .msg msgWelcome⟩, s, g⟩
  | .getUsers creds =>
      match authenticateUser creds s.users with
      | .error r => ⟨r, s, g⟩
      | .ok _ => ⟨⟨200, .userList (s.users.map projectUser)⟩, s, g⟩
  | .postUsers p =>
      let violations := runChain userValidationChain p
      if violations.isEmpty then
        let newUser := createUserRecord s p
        ⟨⟨201, .msg msgUserCreated⟩,
          { s with users := s.users ++ [newUser], nextUserId := s.nextUserId + 1 },
          { g with user := some newUser }⟩
      else
        ⟨⟨400, .errors violations⟩, s, g⟩
  | .getCourses => ⟨⟨200, .courseList s.courses⟩, s, g⟩
  | .getCourse id =>
      match findByPk s.courses id with
      | some c => ⟨⟨200, .courseItem c⟩, s, g⟩
      | none => ⟨⟨404, .msg msgNoCourseWithId⟩, s, g⟩
  | .postCourses creds p =>
      match authenticateUser creds s.users with
      | .error r => ⟨r, s, g⟩
      | .ok _ =>
          let violations := runChain courseValidationChain p
          if violations.isEmpty then
            let newCourse := createCourseRecord s p
            ⟨⟨201, .msg msgCourseCreated⟩,
              { s with courses := s.courses ++ [newCourse],
                       nextCourseId := s.nextCourseId + 1 },
              { g with course := some newCourse }⟩
          else
            ⟨⟨400, .errors violations⟩, s, g⟩
  | .putCourse creds id p =>
      match authenticateUser creds s.users with
      | .error r => ⟨r, s, g⟩
      | .ok _ =>
          let violations := runChain courseValidationChain p
          match findByPk s.courses id with
          | some _ =>
              if violations.isEmpty then
                ⟨⟨204, .msg msgCourseUpdated⟩,
                  { s with courses := s.courses.map (fun c0 =>
                      if c0.id = id then applyCourseUpdate c0 p else c0) },
                  g⟩
              else
                ⟨⟨400, .errors violations⟩, s, g⟩
          | none => ⟨⟨404, .msg msgNoCourseWithId⟩, s, g⟩
  | .deleteCourse creds id =>
      match authenticateUser creds s.users with
      | .error r => ⟨r, s, g⟩
      | .ok _ =>
          match findByPk s.courses id with
          | some _ =>
              ⟨⟨204, .msg msgCourseDeleted⟩,
                { s with courses := s.courses.filter (fun c => c.id ≠ id) },
                g⟩
          | none => ⟨⟨404, .msg msgDeleteNoCourse⟩, s, g⟩

/-! ### Observation helpers for the secret-confidentiality invariant -/

/-- The strings a stored JSON value contributes to a serialized body. -/
def jsStrings : JsValue → List String
  | .str s => [s]
  | _ => []

/-- The strings a serialized course row contributes. -/
def courseStrings (c : Course) : List String :=
  jsStrings c.title ++ jsStrings c.description ++
    (c.estimatedTime.elim [] jsStrings) ++ (c.materialsNeeded.elim [] jsStrings)

/-- Every string occurring anywhere in a response body. -/
def bodyStrings : Body → List String
  | .msg m => [m]
  | .errors es => es
  | .userList us => us.flatMap (fun u => [u.firstName, u.lastName, u.emailAddress])
  | .courseItem c => courseStrings c
  | .courseList cs => cs.flatMap courseStrings
  | .errObj m n d => [m, n, d]

/-- The fixed text constants of the routes file. -/
def fixedMessages : List String :=
  [msgUnauthorized, msgForbiddenNoUser, msgForbiddenPassword, msgWelcome,
    msgUserCreated, msgCourseCreated, msgNoCourseWithId, msgCourseUpdated,
    msgCourseDeleted, msgDeleteNoCourse, msgInternalError]

/-- Every `.withMessage` text of both validation chains. -/
def validationMessages : List String :=
  userValidationChain.flatMap (fun r => r.steps.map Prod.snd) ++
    courseValidationChain.flatMap (fun r => r.steps.map Prod.snd)

/-- The strings a response may legitimately draw on: fixed texts,
validation messages, the non-secret user columns and the course columns of
the store. -/
def publicStrings (s : Store) : List String :=
  fixedMessages ++ validationMessages ++
    s.users.flatMap (fun u => [u.firstName, u.lastName, u.emailAddress]) ++
    s.courses.flatMap courseStrings

/-! ### Field bookkeeping for the required-field claims -/

/-- The required fields of an identity-creation payload. -/
inductive UserField where
  | firstName
  | lastName
  | emailAddress
  | password
deriving DecidableEq, Repr

/-- Read the named field off the payload. -/
def getUserField : UserField → UserPayload → Option JsValue
  | .firstName, p => p.firstName
  | .lastName, p => p.lastName
  | .emailAddress, p => p.emailAddress
  | .password, p => p.password

/-- The JSON key of the field. -/
def userFieldName : UserField → String
  | .firstName => "firstName"
  | .lastName => "lastName"
  | .emailAddress => "emailAddress"
  | .password => "password"

/-- The presence-violation message declared for the field. -/
def requiredMsg : UserField → String
  | .firstName => msgFirstNameRequired
  | .lastName => msgLastNameRequired
  | .emailAddress => msgEmailRequired
  | .password => msgPasswordRequired

/-- `containsChars cs sub` holds when `sub` occurs as a contiguous run
inside `cs`. -/
def containsChars : List Char → List Char → Bool
  | [], sub => sub.isEmpty
  | c :: rest, sub => List.isPrefixOf sub (c :: rest) || containsChars rest sub

/-- `containsSubstr s sub` holds when `sub` occurs inside `s`. -/
def containsSubstr (s sub : String) : Bool :=
  containsChars s.toList sub.toList

/-! ### Concrete fixtures used by the witnesses -/

/-- A stored identity whose secret is the hash of "abc123". -/
def wUser : User :=
  ⟨1, "Joe", "Smith", "joe@smith.com", hashSync "abc123"⟩

/-- A stored course owned by identity 1. -/
def wCourse : Course :=
  ⟨1, .str "T", .str "D", none, none, .num 1⟩

/-- A store holding the fixture identity and course. -/
def wStore : Store :=
  ⟨[wUser], [wCourse], 2, 2⟩

/-- The empty store. -/
def wEmptyStore : Store :=
  ⟨[], [], 1, 1⟩

/-- Fresh globals (nothing assigned yet). -/
def wGlobals : Globals :=
  ⟨none, none⟩

/-- Correct credentials for the fixture identity. -/
def wCreds : Creds :=
  ⟨"joe@smith.com", "abc123"⟩

/-- Credentials with the right name but the wrong secret. -/
def wBadCreds : Creds :=
  ⟨"joe@smith.com", "abc124"⟩

/-- An identity-creation payload with every field absent. -/
def wEmptyUserPayload : UserPayload :=
  ⟨none, none, none, none⟩

/-- A fully valid identity-creation payload. -/
def wUserPayload : UserPayload :=
  ⟨some (.str "Ann"), some (.str "Lee"), some (.str "ann@lee.com"),
    some (.str "abc123")⟩

/-- A fully valid course payload that names owner 2. -/
def wCoursePayload : CoursePayload :=
  ⟨some (.str "TT"), some (.str "DD"), none, none, some (.num 2)⟩

/-- A course payload with every field absent (invalid). -/
def wEmptyCoursePayload : CoursePayload :=
  ⟨none, none, none, none, none⟩

/-- A course payload whose optional fields carry non-string values. -/
def wNumOptCoursePayload : CoursePayload :=
  ⟨some (.str "TT"), some (.str "DD"), some (.num 5), some (.num 6),
    some (.num 2)⟩

end SchoolApi

/-! ## Theorems -/

namespace SchoolApi

/-- Every message a chain item can emit is one of its declared
`.withMessage` texts. -/
theorem runRule_subset {P : Type} (p : P) (r : Rule P) :
    runRule p r ⊆ r.steps.map Prod.snd := by
  intro m hm
  obtain ⟨getter, guard, steps⟩ := r
  have hgo :
      m ∈ steps.filterMap
        (fun step => if step.1 (getter p) then none else some step.2) →
      m ∈ steps.map Prod.snd := by
    intro h
    rw [List.mem_filterMap] at h
    obtain ⟨step, hstep, heq⟩ := h
    rw [List.mem_map]
    refine ⟨step, hstep, ?_⟩
    by_cases ht : step.1 (getter p) = true
    · simp [ht] at heq
    · simp [ht] at heq
      exact heq
  cases guard with
  | none =>
      simp only [runRule] at hm
      exact hgo hm
  | some g =>
      simp only [runRule] at hm
      by_cases hgv : g (getter p) = true
      · rw [if_pos hgv] at hm; exact hgo hm
      · rw [if_neg hgv] at hm; simp at hm

/-- Every message a chain can emit is one of its declared texts. -/
theorem runChain_subset {P : Type} (rules : List (Rule P)) (p : P) :
    runChain rules p ⊆ rules.flatMap (fun r => r.steps.map Prod.snd) := by
  intro m hm
  unfold runChain at hm
  rw [List.mem_flatMap] at hm ⊢
  obtain ⟨r, hr, hm⟩ := hm
  exact ⟨r, hr, runRule_subset p r hm⟩

/-- An authentication failure is one of the three fixed rejections. -/
theorem authenticateUser_error (credentials : Option Creds) (users : List User)
    (r : Response) (h : authenticateUser credentials users = .error r) :
    r = ⟨401, .msg msgUnauthorized⟩ ∨ r = ⟨403, .msg msgForbiddenNoUser⟩ ∨
      r = ⟨403, .msg msgForbiddenPassword⟩ := by
  cases credentials with
  | none =>
      simp [authenticateUser] at h
      simp [← h]
  | some c =>
      cases hf : users.find? (fun u => u.emailAddress = c.name) with
      | none =>
          simp [authenticateUser, hf] at h
          simp [← h]
      | some m =>
          by_cases hc : compareSync c.pass m.password = true
          · simp [authenticateUser, hf, hc] at h
          · simp [authenticateUser, hf, hc] at h
            simp [← h]

/-- C2: for every request to an authenticated operation the outcome
partitions exactly: no (or malformed) credentials yield the 401 response;
a credential name matching no stored identity yields the 403
"no user matches" response; a matching identity whose secret fails bcrypt
verification yields the 403 "password did not match" response (never 401
and never success); a verified pair hands the matched identity to the
handler. -/
theorem auth_outcome_partition (credentials : Option Creds) (users : List User) :
    (credentials = none →
      authenticateUser credentials users = .error ⟨401, .msg msgUnauthorized⟩) ∧
    (∀ c, credentials = some c →
      users.find? (fun u => u.emailAddress = c.name) = none →
      authenticateUser credentials users = .error ⟨403, .msg msgForbiddenNoUser⟩) ∧
    (∀ c m, credentials = some c →
      users.find? (fun u => u.emailAddress = c.name) = some m →
      compareSync c.pass m.password = false →
      authenticateUser credentials users = .error ⟨403, .msg msgForbiddenPassword⟩) ∧
    (∀ c m, credentials = some c →
      users.find? (fun u => u.emailAddress = c.name) = some m →
      compareSync c.pass m.password = true →
      authenticateUser credentials users = .ok m) := by
  refine ⟨?_, ?_, ?_, ?_⟩
  · rintro rfl
    rfl
  · rintro c rfl hf
    simp [authenticateUser, hf]
  · rintro c m rfl hf hc
    simp [authenticateUser, hf, hc]
  · rintro c m rfl hf hc
    simp [authenticateUser, hf, hc]

/-- Witness for C2: all four branches exercised on concrete inputs — no
credentials, an unknown name, the right name with the wrong secret
(403, not 401), and the correct pair. -/
theorem auth_outcome_partition_witness :
    authenticateUser none [wUser] = .error ⟨401, .msg msgUnauthorized⟩ ∧
    authenticateUser (some ⟨"nobody@x.com", "abc123"⟩) [wUser] =
      .error ⟨403, .msg msgForbiddenNoUser⟩ ∧
    authenticateUser (some wBadCreds) [wUser] =
      .error ⟨403, .msg msgForbiddenPassword⟩ ∧
    authenticateUser (some wCreds) [wUser] = .ok wUser := by
  refine ⟨?_, ?_, ?_, ?_⟩
  · exact (auth_outcome_partition none [wUser]).1 rfl
  · exact (auth_outcome_partition (some ⟨"nobody@x.com", "abc123"⟩) [wUser]).2.1
      ⟨"nobody@x.com", "abc123"⟩ rfl (by decide)
  · exact (auth_outcome_partition (some wBadCreds) [wUser]).2.2.1 wBadCreds wUser
      rfl (by decide) (by decide)
  · exact (auth_outcome_partition (some wCreds) [wUser]).2.2.2 wCreds wUser
      rfl (by decide) (by decide)

/-- C6: the error-isolation wrapper turns any exception thrown by the
wrapped handler into a 500 response carrying the generic message, the
error's name and its description (it never re-raises: the result is always
a plain response), and passes any response the handler produced itself —
including the deliberate 400/401/403/404 rejections — through unchanged. -/
theorem asyncHandler_isolation (e : JsError) (r : Response) :
    asyncHandler (.error e) = ⟨500, .errObj msgInternalError e.name e.message⟩ ∧
    asyncHandler (.ok r) = r :=
  ⟨rfl, rfl⟩

/-- C1: for an authenticated `PUT /courses/:id` whose target id resolves to
no course, the response is 404 and the store is untouched, no matter what
the payload looks like; when the target exists, a payload with violations
is rejected with 400 (store untouched), and only a violation-free payload
reaches the update, which answers 204 and rewrites the target row. -/
theorem put_nonexistent_404 (creds : Option Creds) (u : User) (s : Store)
    (g : Globals) (id : Int) (p : CoursePayload)
    (hauth : authenticateUser creds s.users = .ok u) :
    (findByPk s.courses id = none →
      handleFull (.putCourse creds id p) s g =
        ⟨⟨404, .msg msgNoCourseWithId⟩, s, g⟩) ∧
    (∀ c, findByPk s.courses id = some c →
      runChain courseValidationChain p ≠ [] →
      handleFull (.putCourse creds id p) s g =
        ⟨⟨400, .errors (runChain courseValidationChain p)⟩, s, g⟩) ∧
    (∀ c, findByPk s.courses id = some c →
      runChain courseValidationChain p = [] →
      handleFull (.putCourse creds id p) s g =
        ⟨⟨204, .msg msgCourseUpdated⟩,
          { s with courses := s.courses.map (fun c0 =>
              if c0.id = id then applyCourseUpdate c0 p else c0) }, g⟩) := by
  refine ⟨?_, ?_, ?_⟩
  · intro hf
    simp [handleFull, hauth, hf]
  · intro c hf hv
    simp [handleFull, hauth, hf, hv]
  · intro c hf hv
    simp [handleFull, hauth, hf, hv]

/-- Witness for C1: against the fixture store, an authenticated update of
the nonexistent course 5 with an invalid (all fields missing) payload is a
404 that leaves the store as it was — not a 400. -/
theorem put_nonexistent_404_witness :
    authenticateUser (some wCreds) wStore.users = .ok wUser ∧
    findByPk wStore.courses 5 = none ∧
    runChain courseValidationChain wEmptyCoursePayload ≠ [] ∧
    handleFull (.putCourse (some wCreds) 5 wEmptyCoursePayload) wStore wGlobals =
      ⟨⟨404, .msg msgNoCourseWithId⟩, wStore, wGlobals⟩ := by
  refine ⟨by rfl, by decide, by decide, ?_⟩
  exact (put_nonexistent_404 (some wCreds) wUser wStore wGlobals 5
    wEmptyCoursePayload (by rfl)).1 (by decide)

/-- The update map used by `PUT /courses/:id` rewrites exactly the found
row. -/
theorem findByPk_map_update {l : List Course} {id : Int} {c : Course}
    (p : CoursePayload) (hf : findByPk l id = some c) :
    findByPk (l.map (fun c0 =>
        if c0.id = id then applyCourseUpdate c0 p else c0)) id =
      some (applyCourseUpdate c p) := by
  have hcid : c.id = id := by
    have := List.find?_some hf
    simpa using this
  have hpred :
      ((fun c0 : Course => decide (c0.id = id)) ∘ (fun c0 : Course =>
        if c0.id = id then applyCourseUpdate c0 p else c0)) =
      (fun c0 : Course => decide (c0.id = id)) := by
    funext c0
    by_cases h : c0.id = id
    · simp [h, applyCourseUpdate]
    · simp [h]
  unfold findByPk at hf ⊢
  rw [List.find?_map, hpred, hf]
  simp [hcid]

/-- C10: a successful authenticated update (target found, no violations)
answers 204 and replaces the stored row's owner reference with the payload's
`userId` — along with title, description, estimated time and materials
needed — with no check that the authenticated caller is the current owner. -/
theorem put_reassigns_owner (creds : Option Creds) (u : User) (s : Store)
    (g : Globals) (id : Int) (p : CoursePayload) (c : Course) (w : JsValue)
    (hauth : authenticateUser creds s.users = .ok u)
    (hf : findByPk s.courses id = some c)
    (hv : runChain courseValidationChain p = [])
    (hw : p.userId = some w) :
    (handleFull (.putCourse creds id p) s g).resp.status = 204 ∧
    findByPk (handleFull (.putCourse creds id p) s g).store.courses id =
      some
        { id := c.id
          title := p.title.getD c.title
          description := p.description.getD c.description
          estimatedTime :=
            match p.estimatedTime with
            | some v => some v
            | none => c.estimatedTime
          materialsNeeded :=
            match p.materialsNeeded with
            | some v => some v
            | none => c.materialsNeeded
          userId := w } := by
  have hstep : handleFull (.putCourse creds id p) s g =
      ⟨⟨204, .msg msgCourseUpdated⟩,
        { s with courses := s.courses.map (fun c0 =>
            if c0.id = id then applyCourseUpdate c0 p else c0) }, g⟩ := by
    simp [handleFull, hauth, hf, hv]
  refine ⟨by rw [hstep], ?_⟩
  rw [hstep]
  have := findByPk_map_update p hf
  rw [this]
  simp [applyCourseUpdate, hw]

/-- Witness for C10: the fixture caller (identity 1) updates course 1,
owned by identity 1, with a valid payload naming owner 2; the response is
204 and the stored row now references owner 2. -/
theorem put_reassigns_owner_witness :
    authenticateUser (some wCreds) wStore.users = .ok wUser ∧
    findByPk wStore.courses 1 = some wCourse ∧
    runChain courseValidationChain wCoursePayload = [] ∧
    wCoursePayload.userId = some (.num 2) ∧
    (handleFull (.putCourse (some wCreds) 1 wCoursePayload) wStore wGlobals).resp.status = 204 ∧
    findByPk (handleFull (.putCourse (some wCreds) 1 wCoursePayload) wStore
        wGlobals).store.courses 1 =
      some ⟨1, .str "TT", .str "DD", none, none, .num 2⟩ := by
  refine ⟨by rfl, by decide, by decide, by decide, ?_⟩
  exact put_reassigns_owner (some wCreds) wUser wStore wGlobals 1 wCoursePayload
    wCourse (.num 2) (by rfl) (by decide) (by decide) (by decide)

/-- A chain item emits at most one message per declared validator. -/
theorem runRule_length_le {P : Type} (p : P) (r : Rule P) :
    (runRule p r).length ≤ r.steps.length := by
  obtain ⟨getter, guard, steps⟩ := r
  have hgo :
      (steps.filterMap
        (fun step => if step.1 (getter p) then none else some step.2)).length ≤
      steps.length := List.length_filterMap_le _ _
  cases guard with
  | none => simpa only [runRule] using hgo
  | some g =>
      simp only [runRule]
      by_cases hgv : g (getter p) = true
      · rw [if_pos hgv]; exact hgo
      · rw [if_neg hgv]; simp

/-- Counterexample to C3 as stated: the claim says each failing rule of the
declared rule list contributes exactly one message, but the firstName rule
of the identity chain contributes two messages (its presence message and
its isAlpha message) when the field is absent, because the chain does not
bail after the presence check fails. -/
theorem validation_rule_single_message_cex :
    firstNameRule ∈ userValidationChain ∧
    runRule wEmptyUserPayload firstNameRule =
      [msgFirstNameRequired, msgFirstNameAlpha] ∧
    ¬ (runRule wEmptyUserPayload firstNameRule).length ≤ 1 := by
  refine ⟨?_, by rfl, by decide⟩
  simp [userValidationChain]

/-- C3 (amended): every rule of the declared list is evaluated — the
violation list is the concatenation, in declaration order, of every rule's
messages, with no short-circuiting and no deduplication — and a payload
with a non-empty list is rejected with 400 carrying exactly that list
verbatim; but a failing rule contributes one message per failing validator
within it (at most its number of validators), not exactly one. -/
theorem validation_all_rules_evaluated_400 (p : UserPayload)
    (cp : CoursePayload) (creds : Option Creds) (u : User) (s : Store)
    (g : Globals) :
    runChain userValidationChain p =
      runRule p firstNameRule ++ (runRule p lastNameRule ++
        (runRule p emailAddressRule ++ runRule p passwordRule)) ∧
    runChain courseValidationChain cp =
      runRule cp titleRule ++ (runRule cp descriptionRule ++
        (runRule cp estimatedTimeRule ++ (runRule cp materialsNeededRule ++
          runRule cp userIdRule))) ∧
    (∀ r ∈ userValidationChain, (runRule p r).length ≤ r.steps.length) ∧
    (∀ r ∈ courseValidationChain, (runRule cp r).length ≤ r.steps.length) ∧
    (runChain userValidationChain p ≠ [] →
      handleFull (.postUsers p) s g =
        ⟨⟨400, .errors (runChain userValidationChain p)⟩, s, g⟩) ∧
    (authenticateUser creds s.users = .ok u →
      runChain courseValidationChain cp ≠ [] →
      handleFull (.postCourses creds cp) s g =
        ⟨⟨400, .errors (runChain courseValidationChain cp)⟩, s, g⟩) := by
  refine ⟨?_, ?_, ?_, ?_, ?_, ?_⟩
  · simp [runChain, userValidationChain]
  · simp [runChain, courseValidationChain]
  · intro r _
    exact runRule_length_le p r
  · intro r _
    exact runRule_length_le cp r
  · intro hv
    simp [handleFull, hv]
  · intro hauth hv
    simp [handleFull, hauth, hv]

/-- Witness for C3 (amended): the all-fields-missing identity payload is
rejected with 400 and the full seven-message list in declaration order
(each of the first three rules contributing two messages). -/
theorem validation_all_rules_evaluated_400_witness :
    runChain userValidationChain wEmptyUserPayload =
      [msgFirstNameRequired, msgFirstNameAlpha, msgLastNameRequired,
        msgLastNameAlpha, msgEmailRequired, msgEmailValid,
        msgPasswordRequired] ∧
    handleFull (.postUsers wEmptyUserPayload) wStore wGlobals =
      ⟨⟨400, .errors (runChain userValidationChain wEmptyUserPayload)⟩,
        wStore, wGlobals⟩ :=
  ⟨by rfl,
    (validation_all_rules_evaluated_400 wEmptyUserPayload wEmptyCoursePayload
      (some wCreds) wUser wStore wGlobals).2.2.2.2.1 (by decide)⟩

/-- C7: an identity-creation payload whose required field `f` is missing
(absent, null, or falsy — `exists{checkNull, checkFalsy}` fails) is
answered with 400 carrying, among the violations, the presence message for
`f`, which names the field's key; the store (and the leaked globals) are
returned unchanged, so no identity is persisted. -/
theorem missing_required_field_400 (f : UserField) (p : UserPayload)
    (s : Store) (g : Globals)
    (hmiss : existsFalsy (getUserField f p) = false) :
    requiredMsg f ∈ runChain userValidationChain p ∧
    containsSubstr (requiredMsg f) (userFieldName f) = true ∧
    handleFull (.postUsers p) s g =
      ⟨⟨400, .errors (runChain userValidationChain p)⟩, s, g⟩ := by
  have hmem : requiredMsg f ∈ runChain userValidationChain p := by
    unfold runChain
    cases f with
    | firstName =>
        simp only [getUserField] at hmiss
        exact List.mem_flatMap_of_mem
          (show firstNameRule ∈ userValidationChain by simp [userValidationChain])
          (by simp [runRule, firstNameRule, hmiss, requiredMsg])
    | lastName =>
        simp only [getUserField] at hmiss
        exact List.mem_flatMap_of_mem
          (show lastNameRule ∈ userValidationChain by simp [userValidationChain])
          (by simp [runRule, lastNameRule, hmiss, requiredMsg])
    | emailAddress =>
        simp only [getUserField] at hmiss
        exact List.mem_flatMap_of_mem
          (show emailAddressRule ∈ userValidationChain by
            simp [userValidationChain])
          (by simp [runRule, emailAddressRule, hmiss, requiredMsg])
    | password =>
        simp only [getUserField] at hmiss
        exact List.mem_flatMap_of_mem
          (show passwordRule ∈ userValidationChain by simp [userValidationChain])
          (by simp [runRule, passwordRule, hmiss, requiredMsg])
  have hne : runChain userValidationChain p ≠ [] :=
    List.ne_nil_of_mem hmem
  refine ⟨hmem, ?_, by simp [handleFull, hne]⟩
  cases f <;> decide

/-- Witness for C7: the all-fields-missing payload is rejected with the
firstName presence message among the violations and the fixture store is
unchanged. -/
theorem missing_required_field_400_witness :
    existsFalsy (getUserField .firstName wEmptyUserPayload) = false ∧
    (requiredMsg .firstName ∈ runChain userValidationChain wEmptyUserPayload ∧
      containsSubstr (requiredMsg .firstName) (userFieldName .firstName) = true ∧
      handleFull (.postUsers wEmptyUserPayload) wStore wGlobals =
        ⟨⟨400, .errors (runChain userValidationChain wEmptyUserPayload)⟩,
          wStore, wGlobals⟩) :=
  ⟨by decide,
    missing_required_field_400 .firstName wEmptyUserPayload wStore wGlobals
      (by decide)⟩

/-- C8: for any course payload, an absent estimated-time contributes no
violation and an absent materials-needed contributes no violation (their
`.if(exists)` guards skip the rules), while a present non-string value for
either contributes exactly the one string-format message for that field. -/
theorem optional_course_fields (p : CoursePayload) :
    (p.estimatedTime = none → runRule p estimatedTimeRule = []) ∧
    (∀ v, p.estimatedTime = some v → isStringV (some v) = false →
      runRule p estimatedTimeRule = [msgEstimatedTimeString]) ∧
    (p.materialsNeeded = none → runRule p materialsNeededRule = []) ∧
    (∀ v, p.materialsNeeded = some v → isStringV (some v) = false →
      runRule p materialsNeededRule = [msgMaterialsNeededString]) := by
  refine ⟨?_, ?_, ?_, ?_⟩
  · intro h
    simp [runRule, estimatedTimeRule, h, existsDefault]
  · intro v h hv
    simp [runRule, estimatedTimeRule, h, existsDefault, hv]
  · intro h
    simp [runRule, materialsNeededRule, h, existsDefault]
  · intro v h hv
    simp [runRule, materialsNeededRule, h, existsDefault, hv]

/-- Witness for C8: a payload omitting both optional fields incurs no
violation from either rule; a payload carrying numbers in both incurs
exactly the one message each. -/
theorem optional_course_fields_witness :
    runRule wCoursePayload estimatedTimeRule = [] ∧
    runRule wCoursePayload materialsNeededRule = [] ∧
    runRule wNumOptCoursePayload estimatedTimeRule = [msgEstimatedTimeString] ∧
    runRule wNumOptCoursePayload materialsNeededRule =
      [msgMaterialsNeededString] :=
  ⟨(optional_course_fields wCoursePayload).1 rfl,
    (optional_course_fields wCoursePayload).2.2.1 rfl,
    (optional_course_fields wNumOptCoursePayload).2.1 (.num 5) rfl (by decide),
    (optional_course_fields wNumOptCoursePayload).2.2.2 (.num 6) rfl
      (by decide)⟩


/-- C9: the response to a request, and the store it leaves behind, are a
function of the request and the store alone — the write-only module
globals (`user`, `course`) that survive a request never influence a later
response or persistence outcome. -/
theorem response_independent_of_globals (req : Request) (s : Store)
    (g1 g2 : Globals) :
    (handleFull req s g1).resp = (handleFull req s g2).resp ∧
    (handleFull req s g1).store = (handleFull req s g2).store := by
  cases req with
  | root => exact ⟨rfl, rfl⟩
  | getUsers creds =>
      cases h : authenticateUser creds s.users <;> simp [handleFull, h]
  | postUsers p =>
      by_cases hv : (runChain userValidationChain p).isEmpty <;>
        simp [handleFull, hv]
  | getCourses => exact ⟨rfl, rfl⟩
  | getCourse id =>
      cases h : findByPk s.courses id <;> simp [handleFull, h]
  | postCourses creds p =>
      cases h : authenticateUser creds s.users with
      | error r => simp [handleFull, h]
      | ok u =>
          by_cases hv : (runChain courseValidationChain p).isEmpty <;>
            simp [handleFull, h, hv]
  | putCourse creds id p =>
      cases h : authenticateUser creds s.users with
      | error r => simp [handleFull, h]
      | ok u =>
          cases hf : findByPk s.courses id with
          | none => simp [handleFull, h, hf]
          | some c =>
              by_cases hv : (runChain courseValidationChain p).isEmpty <;>
                simp [handleFull, h, hf, hv]
  | deleteCourse creds id =>
      cases h : authenticateUser creds s.users with
      | error r => simp [handleFull, h]
      | ok u =>
          cases hf : findByPk s.courses id <;> simp [handleFull, h, hf]

/-- C5: creating an identity with secret `secret` stores its hash, after
which authenticating with that very secret succeeds (the stored hash
verifies), while authenticating with any secret whose verification against
the stored hash fails is answered with the 403 password rejection. -/
theorem secret_roundtrip (fn ln em secret other : String) (p : UserPayload)
    (s : Store) (g : Globals)
    (hp : p = ⟨some (.str fn), some (.str ln), some (.str em),
      some (.str secret)⟩)
    (hval : runChain userValidationChain p = [])
    (hfresh : ∀ u ∈ s.users, u.emailAddress ≠ em) :
    (∃ m, authenticateUser (some ⟨em, secret⟩)
        (handleFull (.postUsers p) s g).store.users = .ok m ∧
      m.password = hashSync secret) ∧
    (compareSync other (hashSync secret) = false →
      authenticateUser (some ⟨em, other⟩)
        (handleFull (.postUsers p) s g).store.users =
        .error ⟨403, .msg msgForbiddenPassword⟩) := by
  have hstore : (handleFull (.postUsers p) s g).store.users =
      s.users ++ [createUserRecord s p] := by
    simp [handleFull, hval]
  have hnone : ∀ pass : String,
      (s.users.find? (fun u => u.emailAddress = em)) = none := by
    intro _
    rw [List.find?_eq_none]
    intro u hu
    simpa using hfresh u hu
  have hnew : (createUserRecord s p).emailAddress = em := by
    subst hp; rfl
  have hnewpw : (createUserRecord s p).password = hashSync secret := by
    subst hp; rfl
  have hfind : ∀ q : Creds, q.name = em →
      ((s.users ++ [createUserRecord s p]).find?
        (fun u => u.emailAddress = q.name)) = some (createUserRecord s p) := by
    intro q hq
    rw [List.find?_append]
    have h1 : (s.users.find? (fun u => u.emailAddress = q.name)) = none := by
      rw [hq]; exact hnone q.pass
    rw [h1]
    simp [hq, hnew]
  refine ⟨⟨createUserRecord s p, ?_, hnewpw⟩, ?_⟩
  · rw [hstore]
    have h2 := hfind ⟨em, secret⟩ rfl
    simp only [authenticateUser, h2]
    have : compareSync secret (createUserRecord s p).password = true := by
      rw [hnewpw]; simp [compareSync]
    rw [this]
    rfl
  · intro hbad
    rw [hstore]
    have h2 := hfind ⟨em, other⟩ rfl
    simp only [authenticateUser, h2]
    have : compareSync other (createUserRecord s p).password = false := by
      rw [hnewpw]; exact hbad
    rw [this]
    rfl

/-- Witness for C5: against the empty store, creating "ann@lee.com" with
secret "abc123" and then authenticating with "abc123" succeeds, while
"abc124" (which fails verification against the stored hash) is rejected
with the 403 password response. -/
theorem secret_roundtrip_witness :
    (∃ m, authenticateUser (some ⟨"ann@lee.com", "abc123"⟩)
        (handleFull (.postUsers wUserPayload) wEmptyStore wGlobals).store.users =
        .ok m ∧
      m.password = hashSync "abc123") ∧
    authenticateUser (some ⟨"ann@lee.com", "abc124"⟩)
        (handleFull (.postUsers wUserPayload) wEmptyStore wGlobals).store.users =
      .error ⟨403, .msg msgForbiddenPassword⟩ := by
  have h := secret_roundtrip "Ann" "Lee" "ann@lee.com" "abc123" "abc124"
    wUserPayload wEmptyStore wGlobals rfl (by decide)
    (by intro u hu; simp [wEmptyStore] at hu)
  exact ⟨h.1, h.2 (by decide)⟩

/-- A fixed routes-file text is a public string of every store. -/
theorem mem_public_fixed {m : String} (s : Store) (h : m ∈ fixedMessages) :
    m ∈ publicStrings s := by
  unfold publicStrings
  exact List.mem_append_left _ (List.mem_append_left _ (List.mem_append_left _ h))

/-- A declared validation message is a public string of every store. -/
theorem mem_public_valid {m : String} (s : Store)
    (h : m ∈ validationMessages) : m ∈ publicStrings s := by
  unfold publicStrings
  exact List.mem_append_left _
    (List.mem_append_left _ (List.mem_append_right _ h))

/-- A non-secret column of a stored identity is a public string. -/
theorem mem_public_users {m : String} (s : Store)
    (h : m ∈ s.users.flatMap
      (fun u => [u.firstName, u.lastName, u.emailAddress])) :
    m ∈ publicStrings s := by
  unfold publicStrings
  exact List.mem_append_left _ (List.mem_append_right _ h)

/-- A string stored in a course row is a public string. -/
theorem mem_public_courses {m : String} (s : Store)
    (h : m ∈ s.courses.flatMap courseStrings) : m ∈ publicStrings s := by
  unfold publicStrings
  exact List.mem_append_right _ h

/-- Every string in any response body is drawn from the public strings of
the store the request was processed against: fixed texts, declared
validation messages, non-secret identity columns and course columns. -/
theorem handleFull_bodyStrings_subset (req : Request) (s : Store)
    (g : Globals) :
    bodyStrings (handleFull req s g).resp.body ⊆ publicStrings s := by
  have herr : ∀ (creds : Option Creds) (r : Response),
      authenticateUser creds s.users = .error r →
      bodyStrings r.body ⊆ publicStrings s := by
    intro creds r h
    rcases authenticateUser_error creds s.users r h with h1 | h1 | h1 <;>
      (subst h1
       intro m hm
       simp [bodyStrings] at hm
       subst hm
       exact mem_public_fixed s (by simp [fixedMessages]))
  have huser : ∀ (p : UserPayload),
      runChain userValidationChain p ⊆ publicStrings s := by
    intro p m hm
    refine mem_public_valid s ?_
    unfold validationMessages
    exact List.mem_append_left _ (runChain_subset _ _ hm)
  have hcourse : ∀ (cp : CoursePayload),
      runChain courseValidationChain cp ⊆ publicStrings s := by
    intro cp m hm
    refine mem_public_valid s ?_
    unfold validationMessages
    exact List.mem_append_right _ (runChain_subset _ _ hm)
  cases req with
  | root =>
      intro m hm
      simp [handleFull, bodyStrings] at hm
      subst hm
      exact mem_public_fixed s (by simp [fixedMessages])
  | getUsers creds =>
      cases h : authenticateUser creds s.users with
      | error r =>
          simp only [handleFull, h]
          exact herr creds r h
      | ok u =>
          simp only [handleFull, h]
          intro m hm
          simp only [bodyStrings] at hm
          rw [List.flatMap_map] at hm
          exact mem_public_users s hm
  | postUsers p =>
      by_cases hv : (runChain userValidationChain p).isEmpty
      · simp only [handleFull, if_pos hv]
        intro m hm
        simp [bodyStrings] at hm
        subst hm
        exact mem_public_fixed s (by simp [fixedMessages])
      · simp only [handleFull, if_neg hv]
        exact huser p
  | getCourses =>
      intro m hm
      simp only [handleFull, bodyStrings] at hm
      exact mem_public_courses s hm
  | getCourse id =>
      cases h : findByPk s.courses id with
      | some c =>
          simp only [handleFull, h]
          intro m hm
          simp only [bodyStrings] at hm
          exact mem_public_courses s
            (List.mem_flatMap_of_mem (List.mem_of_find?_eq_some h) hm)
      | none =>
          simp only [handleFull, h]
          intro m hm
          simp [bodyStrings] at hm
          subst hm
          exact mem_public_fixed s (by simp [fixedMessages])
  | postCourses creds p =>
      cases h : authenticateUser creds s.users with
      | error r =>
          simp only [handleFull, h]
          exact herr creds r h
      | ok u =>
          simp only [handleFull, h]
          by_cases hv : (runChain courseValidationChain p).isEmpty
          · simp only [if_pos hv]
            intro m hm
            simp [bodyStrings] at hm
            subst hm
            exact mem_public_fixed s (by simp [fixedMessages])
          · simp only [if_neg hv]
            exact hcourse p
  | putCourse creds id p =>
      cases h : authenticateUser creds s.users with
      | error r =>
          simp only [handleFull, h]
          exact herr creds r h
      | ok u =>
          simp only [handleFull, h]
          cases hf : findByPk s.courses id with
          | some c =>
              simp only [hf]
              by_cases hv : (runChain courseValidationChain p).isEmpty
              · simp only [if_pos hv]
                intro m hm
                simp [bodyStrings] at hm
                subst hm
                exact mem_public_fixed s (by simp [fixedMessages])
              · simp only [if_neg hv]
                exact hcourse p
          | none =>
              simp only [hf]
              intro m hm
              simp [bodyStrings] at hm
              subst hm
              exact mem_public_fixed s (by simp [fixedMessages])
  | deleteCourse creds id =>
      cases h : authenticateUser creds s.users with
      | error r =>
          simp only [handleFull, h]
          exact herr creds r h
      | ok u =>
          simp only [handleFull, h]
          cases hf : findByPk s.courses id with
          | some c =>
              simp only [hf]
              intro m hm
              simp [bodyStrings] at hm
              subst hm
              exact mem_public_fixed s (by simp [fixedMessages])
          | none =>
              simp only [hf]
              intro m hm
              simp [bodyStrings] at hm
              subst hm
              exact mem_public_fixed s (by simp [fixedMessages])

/-- C4: no operation, on any store, serializes a stored identity's secret
(bcrypt hash) into its response body — provided the hash does not
coincidentally equal one of the store's public strings — and the
list-identities operation returns exactly the
{id, firstName, lastName, emailAddress} projection of every stored
identity. -/
theorem secret_never_serialized (req : Request) (s : Store) (g : Globals)
    (u : User) (creds : Option Creds) (au : User)
    (_hu : u ∈ s.users) (hpw : u.password ∉ publicStrings s)
    (hauth : authenticateUser creds s.users = .ok au) :
    u.password ∉ bodyStrings (handleFull req s g).resp.body ∧
    (handleFull (.getUsers creds) s g).resp =
      ⟨200, .userList (s.users.map projectUser)⟩ := by
  refine ⟨fun hmem => hpw (handleFull_bodyStrings_subset req s g hmem), ?_⟩
  simp [handleFull, hauth]

/-- Witness for C4: the fixture identity's stored hash appears in no
response to the authenticated list-identities request, whose body is the
four-field projection. -/
theorem secret_never_serialized_witness :
    wUser ∈ wStore.users ∧
    wUser.password ∉ publicStrings wStore ∧
    (wUser.password ∉ bodyStrings
        (handleFull (.getUsers (some wCreds)) wStore wGlobals).resp.body ∧
      (handleFull (.getUsers (some wCreds)) wStore wGlobals).resp =
        ⟨200, .userList (wStore.users.map projectUser)⟩) :=
  ⟨by decide, by decide,
    secret_never_serialized (.getUsers (some wCreds)) wStore wGlobals wUser
      (some wCreds) wUser (by decide) (by decide) (by rfl)⟩

end SchoolApi
